import Mathlib

/-!
Verification development for the ancestor-array synchronization engine of
`mongoose-tree-ancestors` (src/mongoose-tree-ancestors.js).

The store is modelled as a flat list of documents; each document carries the
three fields the engine reads and writes: the store-assigned identifier, the
nullable parent reference and the ordered list of ancestor identifiers.
Identifiers are modelled as naturals (Mongo ObjectIds are opaque values
compared by `toString` equality in the source).  Asynchronous store calls are
modelled by explicit state passing in program order; the one place where the
source deliberately does not wait for a write (the fire-and-forget
`doc.save()` in `_updatedDocument`) is modelled separately by an event trace.
-/

/-- A document of the tree collection: `_id`, the `parent` reference
(`none` models Mongo `null`) and the `ancestors` array (source lines 40-69
declare exactly these fields). -/
structure Node where
  id : Nat
  parent : Option Nat
  ancestors : List Nat
deriving DecidableEq, Repr

/-- The document store: the flat collection the plugin operates on. -/
abbrev Store := List Node

/-- `Model.findOne(byId(value))` (source line 304, helper `byId` lines 40-44):
first document whose id field equals the given value. -/
def getById (s : Store) (i : Nat) : Option Node :=
  s.find? fun m => m.id == i

/-- `doc.save()` at the level of the resulting collection state: the document
with this id is replaced by the saved one (Mongo writes by `_id`); a document
whose id is not present yet is inserted. -/
def saveDoc (s : Store) (n : Node) : Store :=
  if s.any (fun m => m.id == n.id) then
    s.map fun m => if m.id == n.id then n else m
  else s ++ [n]

/-- `Model.update({parent: pid}, {ancestors: chain}, {multi: true})`
(source lines 231-233): set the ancestors array of every document whose
parent field equals `pid`. -/
def updateByParent (s : Store) (pid : Nat) (chain : List Nat) : Store :=
  s.map fun n => if n.parent == some pid then { n with ancestors := chain } else n

/-- `Model.update({parent: null}, {ancestors: []}, {multi: true})`
(source lines 260-262, the "clear path" step of `buildAncestors`). -/
def clearRootAncestors (s : Store) : Store :=
  s.map fun n => if n.parent == none then { n with ancestors := [] } else n

/-- `Model.find({ancestors: docId})` (source line 276 and line 323): Mongo
array-contains query, every document whose ancestors array contains the id. -/
def findByAncestor (s : Store) (i : Nat) : List Node :=
  s.filter fun d => d.ancestors.contains i

example : getById [⟨1, none, []⟩, ⟨2, some 1, [1]⟩] 2 = some ⟨2, some 1, [1]⟩ := by decide

example : saveDoc [⟨1, none, []⟩] ⟨1, none, [7]⟩ = [⟨1, none, [7]⟩] := by decide

example : saveDoc [⟨1, none, []⟩] ⟨2, some 1, [1]⟩ = [⟨1, none, []⟩, ⟨2, some 1, [1]⟩] := by decide

/-! ## Chain calculator, with the in-place mutation of the source

Source lines 310-311 (and identically lines 228-229):

  let parentAncestors = newParent[ancestors];
  let ancestorsArray = (parentAncestors && parentAncestors.push(newParent._id) && parentAncestors) || [];

JS `Array.prototype.push` appends in place and returns the new length, so
for an array-valued chain (JS arrays, including `[]`, are truthy) the
expression evaluates to the very same array object, now holding the parent
chain with the parent id appended.  To make the mutation and the aliasing
observable we model the in-memory arrays as cells of a small heap addressed
by references. -/

/-- In-memory JS array heap: cell `r` holds the current contents of array
object `r`. -/
abbrev ArrHeap := List (List Nat)

/-- Read array object `r`. -/
def heapGet (h : ArrHeap) (r : Nat) : List Nat :=
  h.getD r []

/-- `a.push(v)`: in-place append on array object `r`. -/
def heapPush (h : ArrHeap) (r : Nat) (v : Nat) : ArrHeap :=
  h.set r (h.getD r [] ++ [v])

/-- The chain computation of source lines 310-311 / 228-229 for an
array-valued parent chain stored in cell `r`: push the parent id onto the
parent chain in place and hand back the same array object. -/
def computeChainImpl (h : ArrHeap) (r : Nat) (pid : Nat) : ArrHeap × Nat :=
  (heapPush h r pid, r)

/-! ## Cascade propagator (`updateChilds`, source lines 274-295) -/

/-- The per-descendant rewrite of source lines 282-286: drop every leading
ancestor until the moved node's id is reached (`_.dropWhile` with a
`toString` inequality test), then prepend the moved node's new chain
(`_.concat(doc[ancestors], newAncestors)`). -/
def childRewrite (doc d : Node) : Node :=
  { d with ancestors := doc.ancestors ++ d.ancestors.dropWhile fun x => x != doc.id }

/-- `updateChilds` (source lines 274-295): one `find` over the whole
collection for every document whose ancestors array contains `doc`'s id,
then each found document is rewritten and saved. -/
def updateChilds (store : Store) (doc : Node) : Store :=
  (findByAncestor store doc.id).foldl (fun s d => saveDoc s (childRewrite doc d)) store

/-! ## Insertion / re-parent handler (`_updatedDocument`, source lines 272-318) -/

/-- Error kinds raised by the handlers (source builds them with
`new Error(...)`; the deletion error additionally carries the blocking ids,
see `DeleteResult`). -/
inductive TreeErr where
  | parentNotFound
deriving DecidableEq, Repr

/-- Outcome of one handler invocation: either a rejection — carrying the
(unchanged) collection state and whether `doc.invalidate(parentId, ...)`
was called — or the collection state after the writes. -/
inductive UpdResult where
  | failure (store : Store) (invalidatedParent : Bool) (err : TreeErr)
  | success (store : Store)
deriving DecidableEq, Repr

/-- The collection state an outcome leaves behind. -/
def UpdResult.resultStore : UpdResult → Store
  | .failure s _ _ => s
  | .success s => s

/-- Outcome of the parent lookup `doc.constructor.findOne(byId(doc[parentId]))`
(source line 304): the callback receives either an error, no document, or the
parent document. -/
inductive LookupResult where
  | ioError
  | notFound
  | found (p : Node)

/-- Set the freshly computed ancestors on `doc`, save it, and run the
cascade on it (source lines 299-302 and 312-315; the chain value is the one
`computeChainImpl` produces, read off the heap). -/
def saveAndCascade (store : Store) (doc : Node) (anc : List Nat) : Store :=
  let doc2 := { doc with ancestors := anc }
  updateChilds (saveDoc store doc2) doc2

/-- The parent branch of `_updatedDocument` (source lines 304-316): the
`findOne` callback tests `if (err || !newParent)` — a lookup error and a
missing parent flow into the same rejection, which calls
`doc.invalidate(parentId, ...)` and passes `new Error(...)` to `next`;
otherwise the child chain is computed from the found parent, the document is
saved and the cascade is run. -/
def parentBranch (store : Store) (doc : Node) : LookupResult → UpdResult
  | .ioError => .failure store true .parentNotFound
  | .notFound => .failure store true .parentNotFound
  | .found p => .success (saveAndCascade store doc (p.ancestors ++ [p.id]))

/-- `_updatedDocument` (source lines 272-318), at the level of the final
collection state: a document without a parent gets an empty ancestors array,
is saved and cascaded; a document with a parent goes through the parent
lookup branch.  (The lookup against the modelled store itself never fails;
`parentBranch` keeps the error case separate, see `LookupResult`.) -/
def updatedDocument (store : Store) (doc : Node) : UpdResult :=
  match doc.parent with
  | none => .success (saveAndCascade store doc [])
  | some pid =>
    parentBranch store doc (match getById store pid with
      | none => .notFound
      | some p => .found p)

/-- The `pre('save')` hook (source lines 107-141), dispatching on
`self.isNew` and `self.isModified(parentId)`: a plain update of an existing
document (`!isNew && !isParentIdChange`) just proceeds with the save; a new
root gets `ancestors = []`, `parent = null`; a new document with a parent or
a re-parented document goes through `_updatedDocument`. -/
def saveHandler (store : Store) (doc : Node) (isNew isParentIdChange : Bool) : UpdResult :=
  if !isNew && !isParentIdChange then
    .success (saveDoc store doc)
  else if isNew && doc.parent == none then
    .success (saveDoc store { doc with parent := none, ancestors := [] })
  else if (isNew && doc.parent != none) || (!isNew && isParentIdChange) then
    updatedDocument store doc
  else
    .success (saveDoc store doc)

/-! ## Deletion guard (`_deleteDocument`, source lines 320-344) -/

/-- Outcome of a guarded removal: either the document is removed from the
collection, or the removal is refused and the error carries the ids of the
blocking documents (`err.childrens = _.map(data, '_id')`, source line 336)
while the collection is left as it was. -/
inductive DeleteResult where
  | removed (store : Store)
  | blocked (store : Store) (blockingIds : List Nat)
deriving DecidableEq, Repr

/-- Whether the guard refused the removal. -/
def DeleteResult.isBlocked : DeleteResult → Bool
  | .blocked _ _ => true
  | .removed _ => false

/-- The blocking ids the error carries (empty on a permitted removal). -/
def DeleteResult.blockedIds : DeleteResult → List Nat
  | .blocked _ ids => ids
  | .removed _ => []

/-- The collection state the operation leaves behind. -/
def DeleteResult.storeAfter : DeleteResult → Store
  | .blocked s _ => s
  | .removed s => s

/-- `_deleteDocument` (source lines 320-344) followed by the removal the
hook permits: `find({ancestors: doc._id})`; with no match the removal
proceeds, otherwise `next` receives an error carrying every matched id and
nothing is removed. -/
def deleteDocument (store : Store) (doc : Node) : DeleteResult :=
  let data := findByAncestor store doc.id
  if data.isEmpty then
    .removed (store.filter fun n => n.id != doc.id)
  else
    .blocked store (data.map Node.id)

/-! ## Rebuild engine (`buildAncestors`, source lines 216-270)

`updateChildren` is instrumented with a `ChainUse` record per processed
parent: which ancestors value the code reads off the in-memory document
(`parent[ancestors]`, source line 228) versus the ancestors value the store
holds for that document at that moment.  The recursion is fuel-bounded (the
source recursion terminates only because stores reachable from parent
pointers are finite chains); the fuel is chosen large enough in every
concrete run below. -/

/-- Instrumentation record: the chain `updateChildren` reads from the
in-memory parent document against the chain the store holds for that parent
at the same moment. -/
structure ChainUse where
  parentId : Nat
  usedChain : List Nat
  storedChain : List Nat
deriving DecidableEq, Repr

/-- `updateChildren` (source lines 224-256), sequential model of
`async.mapLimit`: for each parent document, compute the child chain from the
in-memory `parent[ancestors]` (lines 228-229), bulk-update every document
whose parent field is the parent's id (lines 231-233), re-fetch those
children from the store (line 238) and recurse into them unless there are
none (lines 239-247). -/
def updateChildren : Nat → Store → List Node → Store × List ChainUse
  | 0, s, _ => (s, [])
  | fuel + 1, s, pDocs =>
    pDocs.foldl
      (fun acc p =>
        let use : ChainUse :=
          ⟨p.id, p.ancestors, ((getById acc.1 p.id).map Node.ancestors).getD []⟩
        let ancestorsArray := p.ancestors ++ [p.id]
        let s2 := updateByParent acc.1 p.id ancestorsArray
        let children := s2.filter fun n => n.parent == some p.id
        let res1 := if children.isEmpty then (s2, ([] : List ChainUse))
          else updateChildren fuel s2 children
        (res1.1, acc.2 ++ (use :: res1.2)))
      (s, [])

/-- `buildAncestors` (source lines 216-270) with instrumentation: fetch the
root documents (line 258), then clear the roots' ancestors in the store
(lines 260-262), then run `updateChildren` on the root documents fetched
before that clearing step (line 263). -/
def buildAncestorsRun (fuel : Nat) (s : Store) : Store × List ChainUse :=
  let docs := s.filter fun n => n.parent == none
  let s2 := clearRootAncestors s
  updateChildren fuel s2 docs

/-- The collection state `buildAncestors` leaves behind. -/
def buildAncestors (fuel : Nat) (s : Store) : Store :=
  (buildAncestorsRun fuel s).1

/-! ## Event trace of the re-parent path (for the ordering claims)

Straight-line control flow of `_updatedDocument`'s parent branch, source
lines 304-316: the `findOne` callback fires (lookup complete and
successful), `doc.save()` is called with no callback — fire and forget — and
`updateChilds()` is invoked synchronously right after `save()` returns, so
no save-completion is ever awaited before the cascade starts. -/

/-- Events of one handler invocation. -/
inductive SaveEvent where
  | parentLookupStart
  | parentLookupOk
  | saveStart
  | saveComplete
  | cascadeStart
deriving DecidableEq, Repr

/-- `doc.save()` with no callback (source line 313): the write is only
initiated; its completion is never observed by the handler. -/
def fireAndForgetSave : List SaveEvent := [.saveStart]

/-- The synchronous event order of the successful parent branch of
`_updatedDocument` (source lines 304, 310-315). -/
def reparentEvents : List SaveEvent :=
  [.parentLookupStart, .parentLookupOk] ++ fireAndForgetSave ++ [.cascadeStart]

/-- Some occurrence of `a` strictly precedes some occurrence of `b`. -/
def eventBefore (a b : SaveEvent) : List SaveEvent → Bool
  | [] => false
  | e :: rest => (e == a && rest.contains b) || eventBefore a b rest

/-! ## The spec's global invariant and forest well-formedness -/

/-- The global invariant of the spec: a root has an empty ancestors array; a
node with parent `p` has its parent's ancestors followed by `p`. -/
def invariantHolds (s : Store) : Bool :=
  s.all fun n =>
    match n.parent with
    | none => n.ancestors.isEmpty
    | some p => s.any fun q => q.id == p && n.ancestors == q.ancestors ++ [p]

/-- Following parent pointers reaches a root within the given fuel. -/
def rooted (s : Store) : Nat → Option Nat → Bool
  | _, none => true
  | 0, some _ => false
  | fuel + 1, some p =>
    match getById s p with
    | none => false
    | some q => rooted s fuel q.parent

/-- Parent pointers are correct: every parent reference resolves and every
node reaches a root (no cycle). -/
def forestOk (s : Store) : Bool :=
  s.all fun n => rooted s s.length n.parent

example : invariantHolds [⟨1, none, []⟩, ⟨2, some 1, [1]⟩, ⟨3, some 2, [1, 2]⟩] = true := by decide

example : invariantHolds [⟨1, none, []⟩, ⟨2, some 1, []⟩] = false := by decide

example : forestOk [⟨1, none, []⟩, ⟨2, some 1, [1]⟩] = true := by decide

example : forestOk [⟨1, some 2, []⟩, ⟨2, some 1, []⟩] = false := by decide

/-! ## Supporting lemmas about the store primitives -/

theorem find?_id_map_replace (s : Store) (n : Node) (h : ∃ m ∈ s, m.id = n.id) :
    (s.map fun m => if m.id == n.id then n else m).find? (fun m => m.id == n.id) = some n := by
  induction s with
  | nil => simp at h
  | cons m t ih =>
    by_cases hm : m.id = n.id
    · simp [hm]
    · rw [List.map_cons, if_neg (by simpa using hm), List.find?_cons_of_neg _ (by simpa using hm)]
      apply ih
      rcases h with ⟨m', hm', hid⟩
      rcases List.mem_cons.mp hm' with rfl | hmem
      · exact absurd hid hm
      · exact ⟨m', hmem, hid⟩

theorem find?_id_map_replace_other (s : Store) (n : Node) (i : Nat) (h : i ≠ n.id) :
    (s.map fun m => if m.id == n.id then n else m).find? (fun m => m.id == i)
      = s.find? (fun m => m.id == i) := by
  induction s with
  | nil => rfl
  | cons m t ih =>
    by_cases hm : m.id = n.id
    · rw [List.map_cons, if_pos (by simpa using hm),
        List.find?_cons_of_neg _ (by simpa using fun he : n.id = i => h he.symm), ih]
      rw [List.find?_cons_of_neg _ (by simp [hm]; omega)]
    · rw [List.map_cons, if_neg (by simpa using hm)]
      by_cases hi : m.id = i
      · rw [List.find?_cons_of_pos _ (by simpa using hi),
          List.find?_cons_of_pos _ (by simpa using hi)]
      · rw [List.find?_cons_of_neg _ (by simpa using hi),
          List.find?_cons_of_neg _ (by simpa using hi), ih]

theorem getById_saveDoc_self (s : Store) (n : Node) :
    getById (saveDoc s n) n.id = some n := by
  unfold getById saveDoc
  split
  · rename_i hany
    apply find?_id_map_replace
    rcases List.any_eq_true.mp hany with ⟨m, hm, hid⟩
    exact ⟨m, hm, by simpa using hid⟩
  · rename_i hany
    rw [List.find?_append]
    have hnone : s.find? (fun m => m.id == n.id) = none := by
      rw [List.find?_eq_none]
      intro m hm hpm
      exact hany (List.any_eq_true.mpr ⟨m, hm, hpm⟩)
    simp [hnone]

theorem getById_saveDoc_other (s : Store) (n : Node) (i : Nat) (h : i ≠ n.id) :
    getById (saveDoc s n) i = getById s i := by
  unfold getById saveDoc
  split
  · exact find?_id_map_replace_other s n i h
  · rw [List.find?_append]
    have hlast : List.find? (fun m => m.id == i) [n] = none := by
      rw [List.find?_cons_of_neg _ (by simpa using fun he : n.id = i => h he.symm)]
      rfl
    simp [hlast]

theorem getById_foldl_save_not_mem (g : Node → Node) (hg : ∀ d, (g d).id = d.id)
    (L : List Node) (s : Store) (i : Nat) (hi : i ∉ L.map Node.id) :
    getById (L.foldl (fun t d => saveDoc t (g d)) s) i = getById s i := by
  induction L generalizing s with
  | nil => rfl
  | cons e t ih =>
    simp only [List.map_cons, List.mem_cons, not_or] at hi
    rw [List.foldl_cons, ih _ hi.2, getById_saveDoc_other]
    rw [hg]
    exact hi.1

theorem getById_foldl_save_mem (g : Node → Node) (hg : ∀ d, (g d).id = d.id)
    (L : List Node) (hN : (L.map Node.id).Nodup) (s : Store) (d : Node) (hd : d ∈ L) :
    getById (L.foldl (fun t d => saveDoc t (g d)) s) d.id = some (g d) := by
  induction L generalizing s with
  | nil => simp at hd
  | cons e t ih =>
    rw [List.map_cons, List.nodup_cons] at hN
    rcases List.mem_cons.mp hd with rfl | hmem
    · rw [List.foldl_cons, getById_foldl_save_not_mem g hg t _ _ hN.1]
      have := getById_saveDoc_self s (g d)
      rwa [hg] at this
    · exact List.foldl_cons .. ▸ ih hN.2 _ hmem

theorem head?_dropWhile_mem (a : Nat) (l : List Nat) (h : a ∈ l) :
    (l.dropWhile fun x => x != a).head? = some a := by
  induction l with
  | nil => simp at h
  | cons b t ih =>
    by_cases hb : b = a
    · subst hb
      rw [List.dropWhile_cons]
      simp
    · rw [List.dropWhile_cons, if_pos (by simpa using hb)]
      rcases List.mem_cons.mp h with rfl | hm
      · exact absurd rfl hb
      · exact ih hm

theorem saveDoc_of_mem (s : Store) (n : Node) (hu : (s.map Node.id).Nodup) (hm : n ∈ s) :
    saveDoc s n = s := by
  unfold saveDoc
  rw [if_pos (List.any_eq_true.mpr ⟨n, hm, by simp⟩)]
  have hfix : ∀ m ∈ s, (if m.id == n.id then n else m) = m := by
    intro m hmem
    by_cases hid : m.id = n.id
    · rw [if_pos (by simpa using hid)]
      exact (List.inj_on_of_nodup_map hu hmem hm hid).symm
    · rw [if_neg (by simpa using hid)]
  rw [List.map_congr_left hfix]
  simp

/-! ## Concrete stores used by the counterexample and witness theorems -/

/-- A store with correct parent pointers but a stale ancestors value on the
root: node 1 is a root still carrying the stale chain `[99]`, node 2 is its
child.  Exactly the situation `buildAncestors` exists to repair. -/
def staleStore : Store := [⟨1, none, [99]⟩, ⟨2, some 1, []⟩]

/-- Store right after node 2 was re-parented under node 1 and saved: node 3
is node 2's child, node 4 its grandchild, both still carrying the chains
from before the move (node 2 used to be a root). -/
def cascadeDemoStore : Store :=
  [⟨1, none, []⟩, ⟨2, some 1, [1]⟩, ⟨3, some 2, [2]⟩, ⟨4, some 3, [2, 3]⟩]

/-- The spec's running scenario: chain 1 → 2 → 3 with consistent chains. -/
def chainDemoStore : Store := [⟨1, none, []⟩, ⟨2, some 1, [1]⟩, ⟨3, some 2, [1, 2]⟩]

/-! ## Claim theorems -/

/-- Claim C1 (code_bug evidence): the global ancestors invariant must hold
after every successful operation, rebuild included.  On `staleStore` — whose
parent pointers are a correct forest — `buildAncestors` completes without
error (the source even swallows update errors, lines 258-266) yet leaves the
invariant false: the child chain is computed from the root document fetched
before the clear-path update, so node 2 ends with ancestors `[99, 1]` while
its parent, node 1, has ancestors `[]`. -/
theorem rebuild_leaves_invariant_broken :
    forestOk staleStore = true ∧
    invariantHolds (buildAncestors 4 staleStore) = false ∧
    buildAncestors 4 staleStore
      = [⟨1, none, []⟩, ⟨2, some 1, [99, 1]⟩] := by decide

/-- Claim C2: for every stored document `d` whose ancestors array contains
`doc`'s id, the cascade propagator rewrites `d`'s ancestors to `doc`'s new
chain followed by the suffix of `d`'s old ancestors that starts at the first
occurrence of `doc`'s id — and that suffix indeed starts with `doc`'s id.
All such documents, at every depth, are rewritten by the single
`find`-then-save pass of `updateChilds`. -/
theorem cascade_updates_descendants (store : Store) (doc d : Node)
    (hu : (store.map Node.id).Nodup) (hd : d ∈ store) (ha : doc.id ∈ d.ancestors) :
    getById (updateChilds store doc) d.id
      = some { d with ancestors := doc.ancestors ++ d.ancestors.dropWhile fun x => x != doc.id }
    ∧ (d.ancestors.dropWhile fun x => x != doc.id).head? = some doc.id := by
  refine ⟨?_, head?_dropWhile_mem _ _ ha⟩
  have hdL : d ∈ findByAncestor store doc.id := by
    rw [findByAncestor, List.mem_filter]
    exact ⟨hd, List.elem_eq_true_of_mem ha⟩
  have hN : ((findByAncestor store doc.id).map Node.id).Nodup :=
    List.Nodup.sublist (List.Sublist.map Node.id (List.filter_sublist store)) hu
  exact getById_foldl_save_mem (childRewrite doc) (fun _ => rfl) _ hN store d hdL

/-- Claim C2 witness: re-parenting node 2 under node 1 rewrites the
grandchild node 4 (ancestors `[2, 3]`) to `[1, 2, 3]`. -/
theorem cascade_updates_descendants_witness :
    getById (updateChilds cascadeDemoStore ⟨2, some 1, [1]⟩) 4 = some ⟨4, some 3, [1, 2, 3]⟩
    ∧ (([2, 3] : List Nat).dropWhile fun x => x != 2).head? = some 2 := by
  have h := cascade_updates_descendants cascadeDemoStore ⟨2, some 1, [1]⟩ ⟨4, some 3, [2, 3]⟩
    (by decide) (by decide) (by decide)
  exact ⟨h.1.trans (by decide), h.2⟩

/-- Claim C3: removing a document that has at least one descendant — any
stored document whose ancestors array contains its id — is refused, the
store is left unchanged and the error carries the id of every such direct or
indirect descendant; removing a document with no descendant succeeds and
removes exactly that document. -/
theorem deletion_guard_blocks_descendants (store : Store) (doc : Node) :
    ((∃ d ∈ store, doc.id ∈ d.ancestors) →
      (deleteDocument store doc).isBlocked = true ∧
      (deleteDocument store doc).storeAfter = store ∧
      ∀ d ∈ store, doc.id ∈ d.ancestors → d.id ∈ (deleteDocument store doc).blockedIds)
    ∧ ((∀ d ∈ store, doc.id ∉ d.ancestors) →
      deleteDocument store doc = .removed (store.filter fun n => n.id != doc.id)) := by
  constructor
  · rintro ⟨d, hd, ha⟩
    have hmem : d ∈ findByAncestor store doc.id := by
      rw [findByAncestor, List.mem_filter]
      exact ⟨hd, List.elem_eq_true_of_mem ha⟩
    have hne : (findByAncestor store doc.id).isEmpty = false := by
      rcases hq : findByAncestor store doc.id with _ | ⟨x, xs⟩
      · rw [hq] at hmem; simp at hmem
      · rfl
    simp only [deleteDocument, hne, Bool.false_eq_true, if_false]
    refine ⟨rfl, rfl, fun e he hae => ?_⟩
    simp only [DeleteResult.blockedIds]
    refine List.mem_map_of_mem Node.id ?_
    rw [findByAncestor, List.mem_filter]
    exact ⟨he, List.elem_eq_true_of_mem hae⟩
  · intro h
    have hnil : findByAncestor store doc.id = [] := by
      rw [findByAncestor, List.filter_eq_nil_iff]
      intro a ha
      simpa using fun hmem => h a ha hmem
    simp [deleteDocument, hnil]

/-- Claim C3 witness: in the chain 1 → 2 → 3, removing node 2 is refused
with node 3 among the blocking ids and the store untouched, while removing
the leaf node 3 succeeds. -/
theorem deletion_guard_blocks_descendants_witness :
    (deleteDocument chainDemoStore ⟨2, some 1, [1]⟩).isBlocked = true
    ∧ (deleteDocument chainDemoStore ⟨2, some 1, [1]⟩).storeAfter = chainDemoStore
    ∧ (3 : Nat) ∈ (deleteDocument chainDemoStore ⟨2, some 1, [1]⟩).blockedIds
    ∧ deleteDocument chainDemoStore ⟨3, some 2, [1, 2]⟩
        = .removed [⟨1, none, []⟩, ⟨2, some 1, [1]⟩] := by
  have hb := (deletion_guard_blocks_descendants chainDemoStore ⟨2, some 1, [1]⟩).1
    ⟨⟨3, some 2, [1, 2]⟩, by decide, by decide⟩
  have hr := (deletion_guard_blocks_descendants chainDemoStore ⟨3, some 2, [1, 2]⟩).2
    (by decide)
  exact ⟨hb.1, hb.2.1, hb.2.2 ⟨3, some 2, [1, 2]⟩ (by decide) (by decide), hr.trans (by decide)⟩

/-- Claim C4 (code_bug evidence): the source's chain computation
(`parentAncestors.push(newParent._id)`, lines 310-311 and 228-229) does
produce the value `parentChain ++ [parentId]`, but by mutating the parent's
own in-memory array in place and returning that very array object: starting
from a parent chain `[]` in cell 0, the returned reference is cell 0 itself
and cell 0 now holds `[7]` — the parent's chain was mutated and is aliased
into the child. -/
theorem computeChain_mutates_parent :
    (computeChainImpl [[]] 0 7).2 = 0
    ∧ heapGet (computeChainImpl [[]] 0 7).1 0 = [7]
    ∧ heapGet [[]] 0 = [] := by decide

/-- Claim C5: an insert or re-parent whose declared parent id resolves to no
stored document is rejected with the parent-not-found error, the parent
field is invalidated, and the store is left exactly as it was — no record is
created or modified. -/
theorem parent_missing_rejected (store : Store) (doc : Node) (pid : Nat)
    (hp : doc.parent = some pid) (hmiss : getById store pid = none) :
    updatedDocument store doc = .failure store true .parentNotFound
    ∧ (updatedDocument store doc).resultStore = store := by
  have h1 : updatedDocument store doc = .failure store true .parentNotFound := by
    simp [updatedDocument, hp, hmiss, parentBranch]
  refine ⟨h1, ?_⟩
  rw [h1]
  rfl

/-- Claim C5 witness: inserting node 9 with nonexistent parent 5 into the
demo chain fails and leaves the store unchanged. -/
theorem parent_missing_rejected_witness :
    updatedDocument chainDemoStore ⟨9, some 5, []⟩
      = .failure chainDemoStore true .parentNotFound
    ∧ (updatedDocument chainDemoStore ⟨9, some 5, []⟩).resultStore = chainDemoStore :=
  parent_missing_rejected chainDemoStore ⟨9, some 5, []⟩ 5 rfl (by decide)

/-- Claim C6 (code_bug evidence): in the re-parent path the parent lookup
does complete successfully before the document is persisted, but the
document's save is fire-and-forget — `doc.save()` with no callback on source
line 313, with `updateChilds()` invoked synchronously right after — so no
save completion ever precedes the cascade invocation in the handler's event
order. -/
theorem save_not_awaited_before_cascade :
    eventBefore .parentLookupOk .saveStart reparentEvents = true
    ∧ eventBefore .saveStart .cascadeStart reparentEvents = true
    ∧ eventBefore .saveComplete .cascadeStart reparentEvents = false := by decide

/-- Claim C7 (code_bug evidence): rebuild is not idempotent.  On
`staleStore` (correct parent pointers) the first run leaves node 2 with
ancestors `[99, 1]` — computed from the root document fetched before the
clear-path update — while the second run, now reading a clean root, leaves
`[1]`; the two runs disagree. -/
theorem rebuild_not_idempotent :
    forestOk staleStore = true
    ∧ getById (buildAncestors 4 staleStore) 2 = some ⟨2, some 1, [99, 1]⟩
    ∧ getById (buildAncestors 4 (buildAncestors 4 staleStore)) 2 = some ⟨2, some 1, [1]⟩
    ∧ buildAncestors 4 (buildAncestors 4 staleStore) ≠ buildAncestors 4 staleStore := by decide

/-- Claim C8 (code_bug evidence): during the rebuild of `staleStore`, the
chain for the root's children is computed from the root document's in-memory
ancestors `[99]` although the store — whose level-0 write has already
completed — holds `[]` for that root: the child chain computation does not
read a parent chain that is correct in the store.  (Deeper levels re-fetch
after their write, as the second instrumentation record shows.) -/
theorem rebuild_reads_stale_parent_chain :
    (buildAncestorsRun 4 staleStore).2 = [⟨1, [99], []⟩, ⟨2, [99, 1], [99, 1]⟩]
    ∧ ((buildAncestorsRun 4 staleStore).2.filter fun u => u.usedChain != u.storedChain)
      = [⟨1, [99], []⟩] := by decide

/-- Claim C9: saving an existing document whose parent field is unchanged
(`!isNew && !isModified(parent)`, source lines 107-114) skips every ancestor
recomputation and cascade: the resulting collection state is exactly the old
one. -/
theorem plain_save_is_frame (store : Store) (doc : Node)
    (hu : (store.map Node.id).Nodup) (hmem : doc ∈ store) :
    saveHandler store doc false false = .success store := by
  show UpdResult.success (saveDoc store doc) = .success store
  rw [saveDoc_of_mem store doc hu hmem]

/-- Claim C9 witness: a plain save of node 2 of the demo chain leaves the
whole store untouched. -/
theorem plain_save_is_frame_witness :
    saveHandler chainDemoStore ⟨2, some 1, [1]⟩ false false = .success chainDemoStore :=
  plain_save_is_frame chainDemoStore ⟨2, some 1, [1]⟩ (by decide) (by decide)

/-- Claim C10: the `findOne` callback of the re-parent handler tests
`if (err || !newParent)` (source line 305), so a store read error and a
genuinely missing parent produce the very same outcome: the parent-not-found
rejection with the parent field invalidated and the store unchanged. -/
theorem lookup_error_indistinguishable (store : Store) (doc : Node) :
    parentBranch store doc .ioError = parentBranch store doc .notFound
    ∧ parentBranch store doc .ioError = .failure store true .parentNotFound :=
  ⟨rfl, rfl⟩
